import Mathlib

/-!
Shallow embedding of the IntelliB entity/intent extraction pipeline
(`src/intent_extractor/intent_extractor.js`).

JavaScript strings are modelled as lists of code units (`List Nat`);
case mapping is modelled on the ASCII alphabet (the simple one-to-one
mapping actually exercised by the registries).  JSON values flowing out
of the external completion collaborator are modelled by `JVal`
(numbers as exact rationals; the collaborator responses relevant to the
verified claims contain no `NaN`).  The external collaborator itself is
an opaque parameter: each extraction entry point takes the collaborator
outcome (`Except` = thrown transport/parse error, or a parsed raw
result) as an explicit argument.
-/

namespace IntelliB

/-- A JavaScript string, modelled as its sequence of UTF-16 code units. -/
abbrev JSStr := List Nat

/-- Encode a Lean string literal as its list of code points (every literal
used below lies in the BMP, where code points coincide with UTF-16 units). -/
def enc (s : String) : JSStr := s.toList.map Char.toNat

/-- The rational 1/2 (JS `0.5`), in already-reduced form. -/
def half : ℚ := ⟨1, 2, by decide, Nat.coprime_one_left 2⟩

/-- The one-to-one portion of the JS lowercase mapping, on the ASCII and
Latin-1 letters (`A`–`Z`, `À`–`Þ` except `×`, and `Ÿ` → `ÿ`); code points
outside the modelled alphabets are left unchanged. -/
def lowerCode (n : Nat) : Nat :=
  if 65 ≤ n ∧ n ≤ 90 then n + 32
  else if 192 ≤ n ∧ n ≤ 222 ∧ n ≠ 215 then n + 32
  else if n = 376 then 255
  else n

/-- The one-to-one portion of the JS uppercase mapping, on the ASCII and
Latin-1 letters (`a`–`z`, `à`–`þ` except `÷`, and `ÿ` → `Ÿ`); `ß` (223) is
deliberately NOT here — its full mapping expands (see `upperChar`) — and
code points outside the modelled alphabets are left unchanged. -/
def upperCode (n : Nat) : Nat :=
  if 97 ≤ n ∧ n ≤ 122 then n - 32
  else if 224 ≤ n ∧ n ≤ 254 ∧ n ≠ 247 then n - 32
  else if n = 255 then 376
  else n

/-- JS full uppercase mapping of one code unit: Unicode full case mapping
is one-to-many — the German sharp s `ß` (223) expands to `"SS"`
([83, 83]) — and coincides with the one-to-one `upperCode` on the rest of
the modelled alphabets. -/
def upperChar (n : Nat) : List Nat :=
  if n = 223 then [83, 83] else [upperCode n]

/-- JS full lowercase mapping of one code unit: `İ` (304, Latin capital I
with dot above) expands to `"i̇"` ([105, 775]); elsewhere the one-to-one
`lowerCode`. -/
def lowerChar (n : Nat) : List Nat :=
  if n = 304 then [105, 775] else [lowerCode n]

/-- JS `String.prototype.toLowerCase`: the full lowercase mapping applied
to every code unit. -/
def toLowerCase (s : JSStr) : JSStr := (s.map lowerChar).flatten

/-- The code units removed by JS `String.prototype.trim`
(ECMAScript WhiteSpace and LineTerminator). -/
def isTrimmedCode (n : Nat) : Bool :=
  decide ((9 ≤ n ∧ n ≤ 13) ∨ n = 32 ∨ n = 160 ∨ n = 5760 ∨
    (8192 ≤ n ∧ n ≤ 8202) ∨ n = 8232 ∨ n = 8233 ∨ n = 8239 ∨ n = 8287 ∨
    n = 12288 ∨ n = 65279)

/-- JS `String.prototype.trim`. -/
def trim (s : JSStr) : JSStr :=
  ((s.dropWhile isTrimmedCode).reverse.dropWhile isTrimmedCode).reverse

/-- The normalization `x.toLowerCase().trim()` shared by every lookup in the
source. -/
def normalize (s : JSStr) : JSStr := trim (toLowerCase s)

/-- `startsWith s p` is true when `p` is a leading piece of `s`. -/
def startsWith : JSStr → JSStr → Bool
  | _, [] => true
  | [], _ :: _ => false
  | a :: s, b :: p => a == b && startsWith s p

/-- JS `String.prototype.includes`: `strIncludes hay needle` is true when
`needle` occurs contiguously inside `hay`. -/
def strIncludes : JSStr → JSStr → Bool
  | [], needle => needle.isEmpty
  | a :: t, needle => startsWith (a :: t) needle || strIncludes t needle

/-- JS `s.split(' ')`: split at every single space, keeping empty pieces. -/
def splitSpace : JSStr → List JSStr
  | [] => [[]]
  | c :: cs =>
    if c = 32 then [] :: splitSpace cs
    else
      match splitSpace cs with
      | [] => [[c]]
      | w :: ws => (c :: w) :: ws

/-- JS `parts.join(' ')`. -/
def joinSpace : List JSStr → JSStr
  | [] => []
  | [w] => w
  | w :: w' :: ws => w ++ 32 :: joinSpace (w' :: ws)

/-- `EntityExtractor.knownCities` (`intent_extractor.js:270-297`), verbatim,
duplicates included. -/
def knownCities : List JSStr := [
  "london", "paris", "tokyo", "new york", "los angeles", "chicago", "houston", "philadelphia",
  "phoenix", "san antonio", "san diego", "dallas", "san jose", "austin", "jacksonville",
  "fort worth", "columbus", "charlotte", "san francisco", "indianapolis", "seattle",
  "denver", "washington", "boston", "el paso", "detroit", "nashville", "portland",
  "memphis", "oklahoma city", "las vegas", "louisville", "baltimore", "milwaukee",
  "albuquerque", "tucson", "fresno", "mesa", "sacramento", "atlanta", "kansas city",
  "colorado springs", "miami", "raleigh", "omaha", "long beach", "virginia beach",
  "oakland", "minneapolis", "tulsa", "arlington", "tampa", "new orleans", "wichita",
  "berlin", "madrid", "rome", "amsterdam", "vienna", "zurich", "stockholm", "oslo",
  "copenhagen", "helsinki", "dublin", "lisbon", "prague", "budapest", "warsaw",
  "moscow", "istanbul", "athens", "cairo", "dubai", "mumbai", "delhi", "bangalore",
  "chennai", "kolkata", "hyderabad", "pune", "ahmedabad", "jaipur", "surat",
  "beijing", "shanghai", "guangzhou", "shenzhen", "chengdu", "hangzhou", "wuhan",
  "xi'an", "nanjing", "tianjin", "sydney", "melbourne", "brisbane", "perth",
  "adelaide", "gold coast", "newcastle", "canberra", "toronto", "montreal",
  "vancouver", "calgary", "edmonton", "ottawa", "winnipeg", "quebec city",
  "hamilton", "kitchener", "london", "halifax", "mexico city", "guadalajara",
  "monterrey", "puebla", "tijuana", "león", "juárez", "zapopan", "mérida",
  "san luis potosí", "aguascalientes", "hermosillo", "saltillo", "mexicali",
  "culiacán", "chihuahua", "morelia", "xalapa", "tampico", "reynosa", "tuxtla",
  "alexandria", "giza", "aswan", "luxor", "hurghada", "sharm el sheikh",
  "ismailia", "suez", "port said", "mansoura", "tanta", "zagazig", "damanhur",
  "beni suef", "minya", "asyut", "sohag", "qena", "kom ombo", "edfu"
].map enc

/-- `EntityExtractor.knownCountries` (`intent_extractor.js:300-324`), verbatim. -/
def knownCountries : List JSStr := [
  "united states", "usa", "america", "united kingdom", "uk", "england", "britain",
  "france", "germany", "italy", "spain", "portugal", "netherlands", "belgium",
  "switzerland", "austria", "sweden", "norway", "denmark", "finland", "ireland",
  "poland", "czech republic", "hungary", "romania", "bulgaria", "greece", "turkey",
  "russia", "ukraine", "belarus", "lithuania", "latvia", "estonia", "croatia",
  "serbia", "bosnia", "montenegro", "albania", "macedonia", "slovenia", "slovakia",
  "china", "japan", "south korea", "north korea", "india", "pakistan", "bangladesh",
  "sri lanka", "nepal", "bhutan", "myanmar", "thailand", "vietnam", "laos",
  "cambodia", "malaysia", "singapore", "indonesia", "philippines", "brunei",
  "australia", "new zealand", "canada", "mexico", "brazil", "argentina", "chile",
  "peru", "colombia", "venezuela", "ecuador", "bolivia", "uruguay", "paraguay",
  "egypt", "libya", "tunisia", "algeria", "morocco", "sudan", "ethiopia", "kenya",
  "tanzania", "uganda", "rwanda", "burundi", "somalia", "djibouti", "eritrea",
  "south africa", "namibia", "botswana", "zimbabwe", "zambia", "malawi", "mozambique",
  "madagascar", "mauritius", "seychelles", "comoros", "ghana", "nigeria", "senegal",
  "mali", "burkina faso", "niger", "chad", "cameroon", "gabon", "congo",
  "democratic republic of congo", "central african republic", "equatorial guinea",
  "sao tome and principe", "cape verde", "guinea-bissau", "guinea", "sierra leone",
  "liberia", "ivory coast", "togo", "benin", "iran", "iraq", "syria", "lebanon",
  "jordan", "israel", "palestine", "saudi arabia", "yemen", "oman", "uae",
  "united arab emirates", "qatar", "bahrain", "kuwait", "afghanistan", "uzbekistan",
  "kazakhstan", "kyrgyzstan", "tajikistan", "turkmenistan", "mongolia", "armenia",
  "georgia", "azerbaijan"
].map enc

/-- `EntityExtractor.countryCapitals` (`intent_extractor.js:327-477`): the
country → capital map, as its insertion-ordered entry list (all keys are
distinct non-numeric strings, so JS property order is insertion order). -/
def countryCapitals : List (JSStr × JSStr) := [
  ("united states", "Washington D.C."),
  ("usa", "Washington D.C."),
  ("america", "Washington D.C."),
  ("united kingdom", "London"),
  ("uk", "London"),
  ("england", "London"),
  ("britain", "London"),
  ("france", "Paris"),
  ("germany", "Berlin"),
  ("italy", "Rome"),
  ("spain", "Madrid"),
  ("portugal", "Lisbon"),
  ("netherlands", "Amsterdam"),
  ("belgium", "Brussels"),
  ("switzerland", "Bern"),
  ("austria", "Vienna"),
  ("sweden", "Stockholm"),
  ("norway", "Oslo"),
  ("denmark", "Copenhagen"),
  ("finland", "Helsinki"),
  ("ireland", "Dublin"),
  ("poland", "Warsaw"),
  ("czech republic", "Prague"),
  ("hungary", "Budapest"),
  ("romania", "Bucharest"),
  ("bulgaria", "Sofia"),
  ("greece", "Athens"),
  ("turkey", "Ankara"),
  ("russia", "Moscow"),
  ("ukraine", "Kyiv"),
  ("belarus", "Minsk"),
  ("lithuania", "Vilnius"),
  ("latvia", "Riga"),
  ("estonia", "Tallinn"),
  ("croatia", "Zagreb"),
  ("serbia", "Belgrade"),
  ("bosnia", "Sarajevo"),
  ("montenegro", "Podgorica"),
  ("albania", "Tirana"),
  ("macedonia", "Skopje"),
  ("slovenia", "Ljubljana"),
  ("slovakia", "Bratislava"),
  ("china", "Beijing"),
  ("japan", "Tokyo"),
  ("south korea", "Seoul"),
  ("north korea", "Pyongyang"),
  ("india", "New Delhi"),
  ("pakistan", "Islamabad"),
  ("bangladesh", "Dhaka"),
  ("sri lanka", "Colombo"),
  ("nepal", "Kathmandu"),
  ("bhutan", "Thimphu"),
  ("myanmar", "Naypyidaw"),
  ("thailand", "Bangkok"),
  ("vietnam", "Hanoi"),
  ("laos", "Vientiane"),
  ("cambodia", "Phnom Penh"),
  ("malaysia", "Kuala Lumpur"),
  ("singapore", "Singapore"),
  ("indonesia", "Jakarta"),
  ("philippines", "Manila"),
  ("brunei", "Bandar Seri Begawan"),
  ("australia", "Canberra"),
  ("new zealand", "Wellington"),
  ("canada", "Ottawa"),
  ("mexico", "Mexico City"),
  ("brazil", "Brasília"),
  ("argentina", "Buenos Aires"),
  ("chile", "Santiago"),
  ("peru", "Lima"),
  ("colombia", "Bogotá"),
  ("venezuela", "Caracas"),
  ("ecuador", "Quito"),
  ("bolivia", "Sucre"),
  ("uruguay", "Montevideo"),
  ("paraguay", "Asunción"),
  ("egypt", "Cairo"),
  ("libya", "Tripoli"),
  ("tunisia", "Tunis"),
  ("algeria", "Algiers"),
  ("morocco", "Rabat"),
  ("sudan", "Khartoum"),
  ("ethiopia", "Addis Ababa"),
  ("kenya", "Nairobi"),
  ("tanzania", "Dodoma"),
  ("uganda", "Kampala"),
  ("rwanda", "Kigali"),
  ("burundi", "Gitega"),
  ("somalia", "Mogadishu"),
  ("djibouti", "Djibouti"),
  ("eritrea", "Asmara"),
  ("south africa", "Cape Town"),
  ("namibia", "Windhoek"),
  ("botswana", "Gaborone"),
  ("zimbabwe", "Harare"),
  ("zambia", "Lusaka"),
  ("malawi", "Lilongwe"),
  ("mozambique", "Maputo"),
  ("madagascar", "Antananarivo"),
  ("mauritius", "Port Louis"),
  ("seychelles", "Victoria"),
  ("comoros", "Moroni"),
  ("ghana", "Accra"),
  ("nigeria", "Abuja"),
  ("senegal", "Dakar"),
  ("mali", "Bamako"),
  ("burkina faso", "Ouagadougou"),
  ("niger", "Niamey"),
  ("chad", "N'Djamena"),
  ("cameroon", "Yaoundé"),
  ("gabon", "Libreville"),
  ("congo", "Brazzaville"),
  ("democratic republic of congo", "Kinshasa"),
  ("central african republic", "Bangui"),
  ("equatorial guinea", "Malabo"),
  ("sao tome and principe", "São Tomé"),
  ("cape verde", "Praia"),
  ("guinea-bissau", "Bissau"),
  ("guinea", "Conakry"),
  ("sierra leone", "Freetown"),
  ("liberia", "Monrovia"),
  ("ivory coast", "Yamoussoukro"),
  ("togo", "Lomé"),
  ("benin", "Porto-Novo"),
  ("iran", "Tehran"),
  ("iraq", "Baghdad"),
  ("syria", "Damascus"),
  ("lebanon", "Beirut"),
  ("jordan", "Amman"),
  ("israel", "Jerusalem"),
  ("palestine", "Ramallah"),
  ("saudi arabia", "Riyadh"),
  ("yemen", "Sana'a"),
  ("oman", "Muscat"),
  ("uae", "Abu Dhabi"),
  ("united arab emirates", "Abu Dhabi"),
  ("qatar", "Doha"),
  ("bahrain", "Manama"),
  ("kuwait", "Kuwait City"),
  ("afghanistan", "Kabul"),
  ("uzbekistan", "Tashkent"),
  ("kazakhstan", "Nur-Sultan"),
  ("kyrgyzstan", "Bishkek"),
  ("tajikistan", "Dushanbe"),
  ("turkmenistan", "Ashgabat"),
  ("mongolia", "Ulaanbaatar"),
  ("armenia", "Yerevan"),
  ("georgia", "Tbilisi"),
  ("azerbaijan", "Baku")
].map fun e => (enc e.1, enc e.2)

/-- `EntityExtractor.validateCity` (`intent_extractor.js:695-717`). -/
def validateCity (cityName : JSStr) : Bool :=
  let normalizedCity := normalize cityName
  if knownCities.contains normalizedCity then true
  else
    let cityWords := splitSpace normalizedCity
    if cityWords.length > 1 then
      knownCities.any fun knownCity =>
        cityWords.all fun word => (splitSpace knownCity).contains word
    else
      knownCities.any fun knownCity =>
        strIncludes knownCity normalizedCity || strIncludes normalizedCity knownCity

/-- `EntityExtractor.validateCityStrict` (`intent_extractor.js:724-727`). -/
def validateCityStrict (cityName : JSStr) : Bool :=
  let normalizedCity := normalize cityName
  knownCities.contains normalizedCity

/-- `EntityExtractor.isCountry` (`intent_extractor.js:734-755`). -/
def isCountry (entityName : JSStr) : Bool :=
  let normalizedEntity := normalize entityName
  if knownCountries.contains normalizedEntity then true
  else
    let entityWords := splitSpace normalizedEntity
    if entityWords.length > 1 then
      knownCountries.any fun knownCountry =>
        entityWords.all fun word => (splitSpace knownCountry).contains word
    else
      knownCountries.any fun knownCountry =>
        strIncludes knownCountry normalizedEntity || strIncludes normalizedEntity knownCountry

/-- The property names the `countryCapitals` object literal inherits from
`Object.prototype`.  JS property access `countryCapitals[key]` finds these
when `key` is not an own key, and all of them are truthy (functions, plus
the `__proto__` accessor, which yields `Object.prototype` itself).
Property names are case-sensitive, and every lookup key in the source is
lowercased first, so only `constructor` and `__proto__` are reachable. -/
def objectPrototypeMemberNames : List JSStr := [
  "constructor", "hasOwnProperty", "isPrototypeOf", "propertyIsEnumerable",
  "toLocaleString", "toString", "valueOf", "__proto__",
  "__defineGetter__", "__defineSetter__", "__lookupGetter__", "__lookupSetter__"
].map enc

/-- The JS value `EntityExtractor.getCountryCapital` returns: a string
(a capital or the sentinel "Unknown"), or — when the guard
`if (this.countryCapitals[normalizedCountry])` finds a truthy member
inherited from `Object.prototype` — that inherited member (a function or
the prototype object, not a string), identified here by its name. -/
inductive CapitalResult where
  | str (s : JSStr)
  | protoMember (name : JSStr)
  deriving DecidableEq

/-- `EntityExtractor.getCountryCapital` (`intent_extractor.js:762-778`),
modelled faithfully: the guard `if (this.countryCapitals[normalizedCountry])`
is JS property access on an object literal, so it finds an own entry
(every capital is a non-empty, hence truthy, string), or else a truthy
member inherited from `Object.prototype`, and returns it; only failing
both does the substring fallback over the own entries run. -/
def getCountryCapitalValue (countryName : JSStr) : CapitalResult :=
  let normalizedCountry := normalize countryName
  match countryCapitals.find? (fun e => e.1 == normalizedCountry) with
  | some e => .str e.2
  | none =>
    if objectPrototypeMemberNames.contains normalizedCountry then
      .protoMember normalizedCountry
    else
      match countryCapitals.find? (fun e =>
          strIncludes e.1 normalizedCountry || strIncludes normalizedCountry e.1) with
      | some e => .str e.2
      | none => .str (enc "Unknown")

/-- The string-valued restriction of `EntityExtractor.getCountryCapital`,
used by `extractCityEntity`: it drops the `Object.prototype` leak of
`getCountryCapitalValue` and coincides with it whenever the returned
value is a string (`getCountryCapitalValue_agrees`).  The leak is
unreachable from `extractCityEntity`, which calls this only on candidates
with `isCountry = true`, and no input normalizing to a reachable
prototype member name is a country (`country_candidates_never_proto`,
`extractCityEntity_capital_faithful`). -/
def getCountryCapital (countryName : JSStr) : JSStr :=
  let normalizedCountry := normalize countryName
  match countryCapitals.find? (fun e => e.1 == normalizedCountry) with
  | some e => e.2
  | none =>
    match countryCapitals.find? (fun e =>
        strIncludes e.1 normalizedCountry || strIncludes normalizedCountry e.1) with
    | some e => e.2
    | none => enc "Unknown"

/-- One word of `EntityExtractor.formatCityName`:
`word.charAt(0).toUpperCase() + word.slice(1).toLowerCase()`
(`charAt(0)` and `slice(1)` of the empty string are both empty; the full
case mappings apply, so the first unit may expand, e.g. `ß` → `SS`). -/
def formatWord : JSStr → JSStr
  | [] => []
  | c :: rest => upperChar c ++ toLowerCase rest

/-- `EntityExtractor.formatCityName` (`intent_extractor.js:785-790`). -/
def formatCityName (cityName : JSStr) : JSStr :=
  joinSpace ((splitSpace cityName).map formatWord)

/-- A raw JSON field value, as produced by the external completion
collaborator: a number (exact rational; the verified claims involve no
`NaN`), a string, or a missing/`undefined` field. -/
inductive JVal where
  | num (q : ℚ)
  | str (s : JSStr)
  | undef
  deriving DecidableEq

/-- JS truthiness of a `JVal` (`0`, the empty string, and `undefined`
are falsy). -/
def truthy : JVal → Bool
  | .num q => q != 0
  | .str s => !s.isEmpty
  | .undef => false

/-- The raw `{intent, confidence, ...}` object parsed from the intent
collaborator's JSON response. -/
structure RawIntentResult where
  intent : JVal
  confidence : JVal
  deriving DecidableEq

/-- The fields of the result object after
`IntentExtractor.validateIntentResult` has rewritten them (the timestamp,
fresh wall-clock output, is not modelled). -/
structure ValidatedIntentResult where
  intent : JSStr
  confidence : JVal
  deriving DecidableEq

/-- `IntentExtractor.validateIntentResult` (`intent_extractor.js:129-152`):
`validIntents ++ ['undefined']`, the falsy-intent rewrite, the membership
rewrite, then the confidence rewrite.  The JS function mutates `result` and
returns `result.intent`; we return the mutated fields. -/
def validateIntentResult (result : RawIntentResult) (validIntents : List JSStr) :
    ValidatedIntentResult :=
  let allValidIntents := validIntents ++ [enc "undefined"]
  let intent1 : JVal :=
    if truthy result.intent then result.intent else .str (enc "undefined")
  let intent2 : JSStr :=
    match intent1 with
    | .str s => if allValidIntents.contains s then s else enc "undefined"
    | _ => enc "undefined"
  let confidence : JVal :=
    match result.confidence with
    | .num q => if q < 0 ∨ 1 < q then .num half else .num q
    | _ => .num half
  { intent := intent2, confidence := confidence }

/-- What `IntentExtractor.extractIntent` hands back: on success, the
validated intent label; on a caught collaborator failure, the recovery
object `{intent, confidence, error, originalMessage}`. -/
inductive IntentOutcome where
  | label (intent : JSStr)
  | recovered (intent : JSStr) (confidence : ℚ) (errMsg : JSStr) (originalMessage : JSStr)
  deriving DecidableEq

/-- `IntentExtractor.extractIntent` (`intent_extractor.js:43-95`).
`weatherIntents` is the list loaded from `intents.js`; `collabResponse` is
the outcome of the Groq call plus JSON parse (`Except.error` = a thrown
transport/parse failure).  A non-string or empty message throws
(`Except.error`) before the `try` block; the Groq client is assumed
initialized. -/
def extractIntent (userMessage : Option JSStr) (availableIntents : List JSStr)
    (weatherIntents : List JSStr) (collabResponse : Except JSStr RawIntentResult) :
    Except JSStr IntentOutcome :=
  match userMessage with
  | none => .error (enc "User message must be a non-empty string")
  | some msg =>
    if msg.isEmpty then .error (enc "User message must be a non-empty string")
    else
      let intents := if availableIntents.length > 0 then availableIntents else weatherIntents
      match collabResponse with
      | .ok result => .ok (.label (validateIntentResult result intents).intent)
      | .error e => .ok (.recovered (enc "undefined") 0 e msg)

/-- The raw `{city, confidence, reasoning}` object parsed from the entity
collaborator's JSON response (`city` is a string field or absent). -/
structure RawCityResult where
  city : Option JSStr
  confidence : JVal
  reasoning : JVal
  deriving DecidableEq

/-- The metadata object `extractCityEntity` returns when
`includeMetadata` is set.  Fields that a given return site leaves out of
its object literal read as `undefined` in JS; they are modelled by the
defaults here (`none` / `false`).  The wall-clock `timestamp` is not
modelled. -/
structure CityMetadata where
  city : JSStr
  confidence : JVal
  reasoning : Option JVal := none
  errMsg : Option JSStr := none
  extractedRaw : Option JSStr := none
  isValid : Bool
  isCountry : Bool := false
  countryDetected : Option JSStr := none
  capital : Option JSStr := none
  allowedCitiesEcho : Option (List JSStr) := none
  strictModeEcho : Bool := false
  deriving DecidableEq

/-- `extractCityEntity` returns either a bare city string or, with
`includeMetadata`, the metadata object. -/
inductive CityOutput where
  | str (s : JSStr)
  | meta (m : CityMetadata)
  deriving DecidableEq

/-- The `options` bag of `extractCityEntity`.  `none` models an absent (or
otherwise falsy) `allowedCities` / `defaultCity`. -/
structure CityOptions where
  allowedCities : Option (List JSStr) := none
  strictMode : Bool := false
  defaultCity : Option JSStr := none
  includeMetadata : Bool := false
  deriving DecidableEq

/-- `options.defaultCity || "this city don't exist"`: the effective default
response (the JS `||` falls through on a falsy — absent or empty —
configured value). -/
def defaultResponse (opts : CityOptions) : JSStr :=
  match opts.defaultCity with
  | some d => if d.isEmpty then enc "this city don't exist" else d
  | none => enc "this city don't exist"

/-- The reasoning string built in the country branch:
`Detected "<country>" which is a country, returning capital city`. -/
def countryReasoning (countryName : JSStr) : JSStr :=
  enc "Detected \"" ++ countryName ++ enc "\" which is a country, returning capital city"

/-- `EntityExtractor.extractCityEntity` (`intent_extractor.js:506-640`).
`message = none` models a non-string argument; `collabResponse` is the
outcome of the Groq call plus JSON parse.  The guard and catch branches,
the country-precedence branch, the `allowedCities` / registry validation
and the final formatting mirror the source's control flow. -/
def extractCityEntity (message : Option JSStr) (opts : CityOptions)
    (collabResponse : Except JSStr RawCityResult) : CityOutput :=
  if message.elim true List.isEmpty then
    let defaultResp := defaultResponse opts
    if opts.includeMetadata then
      .meta { city := defaultResp, confidence := .num 0,
              errMsg := some (enc "Invalid message input"),
              extractedRaw := none, isValid := false }
    else .str defaultResp
  else
    match collabResponse with
    | .error e =>
      let defaultResp := defaultResponse opts
      if opts.includeMetadata then
        .meta { city := defaultResp, confidence := .num 0,
                errMsg := some e, extractedRaw := none, isValid := false }
      else .str defaultResp
    | .ok result =>
      let allowedCities := opts.allowedCities
      let strictMode := opts.strictMode
      let defaultCity := defaultResponse opts
      let includeMetadata := opts.includeMetadata
      let extractedCity : Option JSStr :=
        match result.city with
        | some s => if s.isEmpty then none else some (normalize s)
        | none => none
      let confidence : JVal :=
        if truthy result.confidence then result.confidence else .num half
      let reasoning : JVal :=
        if truthy result.reasoning then result.reasoning
        else .str (enc "No reasoning provided")
      let proceed : Bool :=
        match extractedCity with
        | some ec => !ec.isEmpty && ec != enc "no_city_found"
        | none => false
      if proceed then
        let ec := extractedCity.getD []
        if isCountry ec then
          let countryName := formatCityName ec
          let capital := getCountryCapital ec
          if includeMetadata then
            .meta { city := capital, confidence := confidence,
                    reasoning := some (.str (countryReasoning countryName)),
                    extractedRaw := extractedCity, isValid := true,
                    isCountry := true, countryDetected := some countryName,
                    capital := some capital,
                    allowedCitiesEcho := allowedCities,
                    strictModeEcho := strictMode }
          else .str capital
        else
          let isValid : Bool :=
            match allowedCities with
            | some cities => cities.any fun city => normalize city == ec
            | none => if strictMode then validateCityStrict ec else validateCity ec
          let finalCity := if isValid then formatCityName ec else defaultCity
          if includeMetadata then
            .meta { city := finalCity, confidence := confidence,
                    reasoning := some reasoning,
                    extractedRaw := extractedCity, isValid := isValid,
                    allowedCitiesEcho := allowedCities,
                    strictModeEcho := strictMode }
          else .str finalCity
      else
        if includeMetadata then
          .meta { city := defaultCity, confidence := confidence,
                  reasoning := some reasoning,
                  extractedRaw := extractedCity, isValid := false,
                  allowedCitiesEcho := allowedCities,
                  strictModeEcho := strictMode }
        else .str defaultCity

/-- The confidence field of a metadata output (`none` for a bare string
output, which carries no confidence). -/
def outputConfidence : CityOutput → Option JVal
  | .str _ => none
  | .meta m => some m.confidence

/-- Whether a raw JSON value is a number lying in [0,1]. -/
def inUnitInterval : JVal → Bool
  | .num q => decide (0 ≤ q ∧ q ≤ 1)
  | _ => false

/-- The spec's three-tier matching policy, read off §4.1 of the spec
verbatim (for comparison with the source's `validateCity` / `isCountry`):
exact match, then — for candidates of ≥ 2 words — order-independent word
subset match, then substring containment either direction as a last
resort, each tier falling through to the next on failure. -/
def specThreeTierMatch (known : List JSStr) (candidate : JSStr) : Bool :=
  let n := normalize candidate
  known.contains n ||
  ((splitSpace n).length > 1 &&
    known.any fun k => (splitSpace n).all fun w => (splitSpace k).contains w) ||
  known.any fun k => strIncludes k n || strIncludes n k

/-- The membership algorithm the source actually implements, shared by
`validateCity` and `isCountry`: exact match; for multi-word candidates the
subset tier's verdict is final; the substring tier runs only for
single-word candidates. -/
def codeMembershipMatch (known : List JSStr) (candidate : JSStr) : Bool :=
  let n := normalize candidate
  if known.contains n then true
  else if (splitSpace n).length > 1 then
    known.any fun k => (splitSpace n).all fun w => (splitSpace k).contains w
  else
    known.any fun k => strIncludes k n || strIncludes n k

/-! ### Helper lemmas -/

theorem mem_toLowerCase {s : JSStr} {c : Nat} (h : c ∈ toLowerCase s) :
    ∃ x ∈ s, c ∈ lowerChar x := by
  simp only [toLowerCase, List.mem_flatten] at h
  rcases h with ⟨l, hl, hc⟩
  rcases List.mem_map.mp hl with ⟨x, hx, rfl⟩
  exact ⟨x, hx, hc⟩

theorem trim_subset {s : JSStr} {c : Nat} (h : c ∈ trim s) : c ∈ s := by
  unfold trim at h
  rw [List.mem_reverse] at h
  have h1 := (List.dropWhile_sublist isTrimmedCode).subset h
  rw [List.mem_reverse] at h1
  exact (List.dropWhile_sublist isTrimmedCode).subset h1

theorem lowerCode_not_upper (n : Nat) : ¬ (65 ≤ lowerCode n ∧ lowerCode n ≤ 90) := by
  unfold lowerCode
  split_ifs <;> omega

theorem mem_normalize_not_upper {s : JSStr} {c : Nat} (h : c ∈ normalize s) :
    ¬ (65 ≤ c ∧ c ≤ 90) := by
  unfold normalize at h
  rcases mem_toLowerCase (trim_subset h) with ⟨x, _, hlx⟩
  unfold lowerChar at hlx
  split at hlx
  · simp at hlx
    rcases hlx with rfl | rfl <;> omega
  · simp only [List.mem_singleton] at hlx
    subst hlx
    exact lowerCode_not_upper x

/-! ### Claim theorems -/

/-- C9: strict matching implies fuzzy matching: whenever
`EntityExtractor.validateCityStrict` accepts a candidate, so does
`EntityExtractor.validateCity` — `strictMode` can only shrink the set of
accepted cities. -/
theorem validateCityStrict_implies_validateCity (c : JSStr)
    (h : validateCityStrict c = true) : validateCity c = true := by
  simp only [validateCityStrict] at h
  simp only [validateCity, h, if_true]

theorem validateCityStrict_implies_validateCity_witness :
    validateCityStrict (enc "london") = true ∧ validateCity (enc "london") = true :=
  ⟨by decide, validateCityStrict_implies_validateCity (enc "london") (by decide)⟩

/-- C10: the last-resort substring tier accepts the empty candidate: any
input normalizing (lowercase, trim) to the empty string is classified a
country by `EntityExtractor.isCountry`, and
`EntityExtractor.getCountryCapital` resolves it to the capital of the first
map entry, `Washington D.C.`, rather than `Unknown`, since every known
entry contains the empty string. -/
theorem empty_candidate_country (s : JSStr) (h : normalize s = []) :
    isCountry s = true ∧ getCountryCapital s = enc "Washington D.C." := by
  constructor
  · simp only [isCountry, h]
    decide
  · simp only [getCountryCapital, h]
    decide

theorem empty_candidate_country_witness :
    isCountry (enc "   ") = true ∧ getCountryCapital (enc "   ") = enc "Washington D.C." :=
  empty_candidate_country (enc "   ") (by decide)

/-- C3 counterexample: the multi-word candidate "new yor" fails the subset
tier, and the source's `validateCity` rejects it without ever consulting
the substring tier — although the spec's three-tier policy
(`specThreeTierMatch`) accepts it there, since "new york" contains
"new yor". -/
theorem multiword_substring_tier_skipped :
    validateCity (enc "new yor") = false ∧
    specThreeTierMatch knownCities (enc "new yor") = true := by decide

/-- C3 amended: city and country membership (`validateCity` / `isCountry`)
are decided by the same algorithm (`codeMembershipMatch`) over their
respective registries: exact match first; for candidates of at least two
words the subset tier's verdict is final (the substring tier is NOT
consulted for multi-word candidates); substring containment either
direction applies only to single-word candidates. -/
theorem membership_same_tiers (c : JSStr) :
    validateCity c = codeMembershipMatch knownCities c ∧
    isCountry c = codeMembershipMatch knownCountries c :=
  ⟨rfl, rfl⟩

/-- C6: any transport/JSON-parse failure raised by the external completion
collaborator inside `IntentExtractor.extractIntent` on a non-empty string
message is caught locally and converted into a result with intent
"undefined", confidence 0.0, and the error message attached — never
propagated as an exception (`Except.error`) to the caller. -/
theorem extractIntent_recovers_failures (msg : JSStr) (h : msg ≠ [])
    (availableIntents weatherIntents : List JSStr) (e : JSStr) :
    extractIntent (some msg) availableIntents weatherIntents (.error e)
      = .ok (.recovered (enc "undefined") 0 e msg) := by
  have h' : msg.isEmpty = false := by
    cases msg with
    | nil => exact absurd rfl h
    | cons a t => rfl
  simp [extractIntent, h']

theorem extractIntent_recovers_failures_witness :
    extractIntent (some (enc "hello")) [] [enc "today"] (.error (enc "network down"))
      = .ok (.recovered (enc "undefined") 0 (enc "network down") (enc "hello")) :=
  extractIntent_recovers_failures (enc "hello") (by decide) [] [enc "today"] (enc "network down")

/-- C7: a non-string (`none`) or empty message makes
`EntityExtractor.extractCityEntity` short-circuit — for every possible
collaborator response, i.e. without consulting the external extractor —
to the configured `defaultCity` (or, with `includeMetadata`, its metadata
object) with confidence 0 and `isValid = false`. -/
theorem extractCityEntity_guard (message : Option JSStr)
    (h : message = none ∨ message = some []) (opts : CityOptions)
    (resp : Except JSStr RawCityResult) :
    extractCityEntity message opts resp =
      if opts.includeMetadata then
        .meta { city := defaultResponse opts, confidence := .num 0,
                errMsg := some (enc "Invalid message input"),
                extractedRaw := none, isValid := false }
      else .str (defaultResponse opts) := by
  have h' : message.elim true List.isEmpty = true := by
    rcases h with h | h <;> subst h <;> rfl
  simp only [extractCityEntity, h', if_true]

theorem extractCityEntity_guard_witness :
    extractCityEntity none { defaultCity := some (enc "Cairo") }
        (.ok ⟨some (enc "paris"), JVal.num 1, JVal.undef⟩)
      = .str (enc "Cairo") :=
  (extractCityEntity_guard none (Or.inl rfl) _ _).trans (by decide)

theorem lookup_eq_find?_snd (l : List (JSStr × JSStr)) (n : JSStr) :
    l.lookup n = (l.find? fun e => e.1 == n).map Prod.snd := by
  induction l with
  | nil => rfl
  | cons e t ih =>
    rcases e with ⟨k, v⟩
    by_cases h : k = n
    · subst h
      simp [List.lookup, List.find?]
    · have h1 : (n == k) = false := by
        simp only [beq_eq_false_iff_ne, ne_eq]
        exact fun he => h he.symm
      have h2 : (k == n) = false := by
        simp only [beq_eq_false_iff_ne, ne_eq]
        exact h
      simp [List.lookup, List.find?, h1, h2, ih]

theorem country_candidates_never_proto (ec : JSStr) (h : isCountry ec = true) :
    objectPrototypeMemberNames.contains (normalize ec) = false := by
  by_contra hc
  rw [Bool.not_eq_false] at hc
  have hmem : normalize ec ∈ objectPrototypeMemberNames := by
    simpa [List.contains, List.elem_eq_mem] using hc
  simp only [objectPrototypeMemberNames, List.map_cons, List.map_nil,
    List.mem_cons, List.not_mem_nil, or_false] at hmem
  rcases hmem with h1 | h1 | h1 | h1 | h1 | h1 | h1 | h1 | h1 | h1 | h1 | h1
  · simp only [isCountry, h1] at h
    exact absurd h (by decide)
  · exact mem_normalize_not_upper (c := 79) (by rw [h1]; decide) (by omega)
  · exact mem_normalize_not_upper (c := 80) (by rw [h1]; decide) (by omega)
  · exact mem_normalize_not_upper (c := 73) (by rw [h1]; decide) (by omega)
  · exact mem_normalize_not_upper (c := 76) (by rw [h1]; decide) (by omega)
  · exact mem_normalize_not_upper (c := 83) (by rw [h1]; decide) (by omega)
  · exact mem_normalize_not_upper (c := 79) (by rw [h1]; decide) (by omega)
  · simp only [isCountry, h1] at h
    exact absurd h (by decide)
  · exact mem_normalize_not_upper (c := 71) (by rw [h1]; decide) (by omega)
  · exact mem_normalize_not_upper (c := 83) (by rw [h1]; decide) (by omega)
  · exact mem_normalize_not_upper (c := 71) (by rw [h1]; decide) (by omega)
  · exact mem_normalize_not_upper (c := 83) (by rw [h1]; decide) (by omega)

theorem getCountryCapitalValue_agrees (c : JSStr)
    (h : objectPrototypeMemberNames.contains (normalize c) = false) :
    getCountryCapitalValue c = .str (getCountryCapital c) := by
  simp only [getCountryCapitalValue, getCountryCapital, h, Bool.false_eq_true,
    if_false]
  rcases h1 : countryCapitals.find? (fun e => e.1 == normalize c) with _ | e
  · rcases h2 : countryCapitals.find? (fun e =>
        strIncludes e.1 (normalize c) || strIncludes (normalize c) e.1) with _ | e2
    · simp [h1, h2]
    · simp [h1, h2]
  · simp [h1]

theorem extractCityEntity_capital_faithful (ec : JSStr) (h : isCountry ec = true) :
    getCountryCapitalValue ec = .str (getCountryCapital ec) :=
  getCountryCapitalValue_agrees ec (country_candidates_never_proto ec h)

/-- C4 counterexample: at the input "constructor", the exact own-key
lookup and the substring fallback both fail, yet the result is not the
sentinel "Unknown": the guard `if (this.countryCapitals[normalizedCountry])`
is JS property access, which finds the truthy `constructor` member the
object literal inherits from `Object.prototype` and returns it — a
function, not a capital string. -/
theorem getCountryCapital_proto_counterexample :
    countryCapitals.lookup (enc "constructor") = none
  ∧ countryCapitals.find? (fun e => strIncludes e.1 (enc "constructor") ||
      strIncludes (enc "constructor") e.1) = none
  ∧ getCountryCapitalValue (enc "constructor") = .protoMember (enc "constructor")
  ∧ getCountryCapitalValue (enc "constructor") ≠ .str (enc "Unknown") := by decide

/-- C4 amended: `EntityExtractor.getCountryCapital` resolves the normalized
(lowercased, trimmed) name by JS property access on the capitals object:
an own entry's capital is returned first; failing that, a truthy member
inherited from `Object.prototype` (reachable lowercase names:
`constructor`, `__proto__`) is returned itself — not a string; only
otherwise does the substring-containment fallback either direction over
the own entries run, returning the first matching entry's capital, and the
sentinel "Unknown" if nothing matches. -/
theorem getCountryCapitalValue_tiers (countryName : JSStr) :
    (∀ cap, countryCapitals.lookup (normalize countryName) = some cap →
        getCountryCapitalValue countryName = .str cap)
  ∧ (countryCapitals.lookup (normalize countryName) = none →
      objectPrototypeMemberNames.contains (normalize countryName) = true →
        getCountryCapitalValue countryName = .protoMember (normalize countryName))
  ∧ (countryCapitals.lookup (normalize countryName) = none →
      objectPrototypeMemberNames.contains (normalize countryName) = false →
      ∀ k cap, countryCapitals.find? (fun e =>
          strIncludes e.1 (normalize countryName) ||
          strIncludes (normalize countryName) e.1) = some (k, cap) →
        getCountryCapitalValue countryName = .str cap)
  ∧ (countryCapitals.lookup (normalize countryName) = none →
      objectPrototypeMemberNames.contains (normalize countryName) = false →
      countryCapitals.find? (fun e =>
          strIncludes e.1 (normalize countryName) ||
          strIncludes (normalize countryName) e.1) = none →
        getCountryCapitalValue countryName = .str (enc "Unknown")) := by
  refine ⟨?_, ?_, ?_, ?_⟩
  · intro cap hcap
    rw [lookup_eq_find?_snd] at hcap
    rcases h : countryCapitals.find? (fun e => e.1 == normalize countryName) with _ | e
    · rw [h] at hcap
      simp at hcap
    · rw [h] at hcap
      simp only [Option.map] at hcap
      simp [getCountryCapitalValue, h, Option.some.inj hcap]
  · intro hnone hproto
    rw [lookup_eq_find?_snd] at hnone
    have hp : normalize countryName ∈ objectPrototypeMemberNames := by
      simpa [List.contains, List.elem_eq_mem] using hproto
    rcases h : countryCapitals.find? (fun e => e.1 == normalize countryName) with _ | e
    · simp [getCountryCapitalValue, h, hp]
    · rw [h] at hnone
      simp at hnone
  · intro hnone hproto k cap hsub
    rw [lookup_eq_find?_snd] at hnone
    have hp : normalize countryName ∉ objectPrototypeMemberNames := by
      simpa [List.contains, List.elem_eq_mem] using hproto
    rcases h : countryCapitals.find? (fun e => e.1 == normalize countryName) with _ | e
    · simp [getCountryCapitalValue, h, hp, hsub]
    · rw [h] at hnone
      simp at hnone
  · intro hnone hproto hsub
    rw [lookup_eq_find?_snd] at hnone
    have hp : normalize countryName ∉ objectPrototypeMemberNames := by
      simpa [List.contains, List.elem_eq_mem] using hproto
    rcases h : countryCapitals.find? (fun e => e.1 == normalize countryName) with _ | e
    · simp [getCountryCapitalValue, h, hp, hsub]
    · rw [h] at hnone
      simp at hnone

theorem getCountryCapitalValue_tiers_witness :
    getCountryCapitalValue (enc "france") = .str (enc "Paris")
  ∧ getCountryCapitalValue (enc "constructor") = .protoMember (enc "constructor")
  ∧ getCountryCapitalValue (enc "united state") = .str (enc "Washington D.C.")
  ∧ getCountryCapitalValue (enc "zz") = .str (enc "Unknown") :=
  ⟨(getCountryCapitalValue_tiers (enc "france")).1 (enc "Paris") (by decide),
   ((getCountryCapitalValue_tiers (enc "constructor")).2.1 (by decide)
      (by decide)).trans (by decide),
   (getCountryCapitalValue_tiers (enc "united state")).2.2.1 (by decide) (by decide)
     (enc "united states") (enc "Washington D.C.") (by decide),
   (getCountryCapitalValue_tiers (enc "zz")).2.2.2 (by decide) (by decide) (by decide)⟩

/-- C5 counterexample: with `allowedIntents = [""]`, the raw intent `""` IS
a member of `allowedIntents ∪ {"undefined"}`, yet
`IntentExtractor.validateIntentResult` rewrites it to "undefined" (the
falsy-intent check `!result.intent` fires on the empty string before the
membership check runs). -/
theorem empty_member_intent_rewritten :
    (([] : JSStr) ∈ ([[]] : List JSStr) ++ [enc "undefined"])
  ∧ (validateIntentResult ⟨JVal.str [], JVal.num 1⟩ [[]]).intent = enc "undefined"
  ∧ enc "undefined" ≠ ([] : JSStr) := by decide

/-- C5 amended: `IntentExtractor.validateIntentResult` forces the resulting
intent to "undefined" whenever the raw intent field is missing, falsy (in
particular the empty string), or not a member of
`allowedIntents ∪ {"undefined"}`; a NON-EMPTY member intent is kept
unchanged. -/
theorem validateIntentResult_intent_policy (result : RawIntentResult)
    (validIntents : List JSStr) :
    ((∀ s, result.intent = JVal.str s → s = [] ∨ s ∉ validIntents ++ [enc "undefined"]) →
      (validateIntentResult result validIntents).intent = enc "undefined")
  ∧ (∀ s, result.intent = JVal.str s → s ≠ [] → s ∈ validIntents ++ [enc "undefined"] →
      (validateIntentResult result validIntents).intent = s) := by
  constructor
  · intro hforce
    rcases hi : result.intent with q | s | _
    · simp only [validateIntentResult, hi, truthy]
      by_cases hq : q = 0
      · simp [hq, List.contains, List.elem_eq_mem]
      · simp [hq]
    · rcases hforce s hi with rfl | hnot
      · simp [validateIntentResult, hi, truthy, List.contains, List.elem_eq_mem]
      · by_cases hs : s = []
        · simp [validateIntentResult, hi, hs, truthy, List.contains, List.elem_eq_mem]
        · have hs' : s.isEmpty = false := by
            cases s with
            | nil => exact absurd rfl hs
            | cons a t => rfl
          simp [validateIntentResult, hi, truthy, hs', List.contains, List.elem_eq_mem, hnot]
    · simp [validateIntentResult, hi, truthy, List.contains, List.elem_eq_mem]
  · intro s hi hs hmem
    have hs' : s.isEmpty = false := by
      cases s with
      | nil => exact absurd rfl hs
      | cons a t => rfl
    simp [validateIntentResult, hi, truthy, hs', List.contains, List.elem_eq_mem, hmem]

theorem validateIntentResult_intent_policy_witness :
    (validateIntentResult ⟨JVal.str (enc "chitchat"), JVal.num 1⟩ [enc "today"]).intent
      = enc "undefined"
  ∧ (validateIntentResult ⟨JVal.str (enc "today"), JVal.num 1⟩ [enc "today"]).intent
      = enc "today" := by
  constructor
  · refine (validateIntentResult_intent_policy _ _).1 ?_
    intro s hs
    injection hs with h
    subst h
    exact Or.inr (by decide)
  · exact (validateIntentResult_intent_policy _ _).2 (enc "today") rfl (by decide) (by decide)

/-- C2: country precedence: whenever the extracted candidate (normalized)
matches the country registry, `extractCityEntity` immediately returns that
country's capital obtained via `getCountryCapital` as the final location —
for EVERY options bag, in particular before any `allowedCities` or
city-registry validation, so a candidate matching both a country and an
allowed-city list resolves as the country — marked `isCountry = true` and
`isValid = true`, with no condition on the capital (it may be the sentinel
"Unknown"). -/
theorem extractCityEntity_country_precedence (msg : JSStr) (hmsg : msg ≠ [])
    (opts : CityOptions) (raw : RawCityResult) (s : JSStr)
    (hcity : raw.city = some s) (hs : s ≠ [])
    (hnem : normalize s ≠ []) (hne : normalize s ≠ enc "no_city_found")
    (hctry : isCountry (normalize s) = true) :
    extractCityEntity (some msg) opts (.ok raw) =
      if opts.includeMetadata then
        .meta { city := getCountryCapital (normalize s),
                confidence := if truthy raw.confidence then raw.confidence else .num half,
                reasoning := some (.str (countryReasoning (formatCityName (normalize s)))),
                extractedRaw := some (normalize s), isValid := true,
                isCountry := true,
                countryDetected := some (formatCityName (normalize s)),
                capital := some (getCountryCapital (normalize s)),
                allowedCitiesEcho := opts.allowedCities,
                strictModeEcho := opts.strictMode }
      else .str (getCountryCapital (normalize s)) := by
  have hmsg' : msg.isEmpty = false := by
    cases msg with
    | nil => exact absurd rfl hmsg
    | cons a t => rfl
  have hs' : s.isEmpty = false := by
    cases s with
    | nil => exact absurd rfl hs
    | cons a t => rfl
  have hnem' : (normalize s).isEmpty = false := by
    rcases hns : normalize s with _ | ⟨a, t⟩
    · exact absurd hns hnem
    · rfl
  have hne' : (normalize s != enc "no_city_found") = true := bne_iff_ne.mpr hne
  simp only [extractCityEntity, Option.elim, hmsg', Bool.false_eq_true, if_false,
    hcity, hs', hnem', hne', Bool.not_false, Bool.true_and, Bool.and_self, hctry,
    if_true, Option.getD_some]

theorem extractCityEntity_country_precedence_witness :
    extractCityEntity (some (enc "w"))
        { allowedCities := some [enc "republic czech"], includeMetadata := true }
        (.ok ⟨some (enc "Republic Czech"), JVal.num 1, JVal.undef⟩)
      = .meta { city := enc "Unknown", confidence := JVal.num 1,
                reasoning := some (.str (countryReasoning (enc "Republic Czech"))),
                extractedRaw := some (enc "republic czech"), isValid := true,
                isCountry := true, countryDetected := some (enc "Republic Czech"),
                capital := some (enc "Unknown"),
                allowedCitiesEcho := some [enc "republic czech"],
                strictModeEcho := false } :=
  (extractCityEntity_country_precedence (enc "w") (by decide) _ _
    (enc "Republic Czech") rfl (by decide) (by decide) (by decide) (by decide)).trans
    (by decide)

/-- C1 counterexample: a raw entity-extractor confidence of 5 — a number
outside [0,1], hence by the claim one that must be normalized to 0.5 — is
attached to `extractCityEntity`'s metadata result unchanged, so the result
confidence is not in [0,1]. -/
theorem confidence_passthrough_counterexample :
    outputConfidence (extractCityEntity (some (enc "m")) ⟨none, false, none, true⟩
        (.ok ⟨some (enc "london"), JVal.num 5, JVal.undef⟩)) = some (JVal.num 5)
  ∧ inUnitInterval (JVal.num 5) = false := by decide

/-- C1 amended: `IntentExtractor.validateIntentResult` always attaches a
numeric confidence in [0,1], substituting 0.5 exactly when the raw
confidence is not a number in [0,1]; `EntityExtractor.extractCityEntity`,
by contrast, substitutes 0.5 only when the raw confidence is falsy
(missing, 0, or an empty string) and attaches any truthy raw value — e.g.
5 or "high" — unchanged. -/
theorem confidence_policy :
    (∀ (result : RawIntentResult) (validIntents : List JSStr),
        inUnitInterval (validateIntentResult result validIntents).confidence = true
      ∧ (inUnitInterval result.confidence = false →
          (validateIntentResult result validIntents).confidence = .num half))
  ∧ (∀ (msg : JSStr), msg ≠ [] → ∀ (opts : CityOptions), opts.includeMetadata = true →
      ∀ (raw : RawCityResult),
        outputConfidence (extractCityEntity (some msg) opts (.ok raw))
          = some (if truthy raw.confidence then raw.confidence else .num half)) := by
  constructor
  · intro result validIntents
    rcases hc : result.confidence with q | s | _
    · by_cases hq : q < 0 ∨ 1 < q
      · constructor
        · simp only [validateIntentResult, hc, if_pos hq]
          decide
        · intro _
          simp only [validateIntentResult, hc, if_pos hq]
      · push_neg at hq
        have hq' : ¬ (q < 0 ∨ 1 < q) := by
          push_neg
          exact hq
        constructor
        · simp only [validateIntentResult, hc, if_neg hq', inUnitInterval,
            decide_eq_true_eq]
          exact hq
        · intro hfalse
          exfalso
          simp only [hc, inUnitInterval, decide_eq_false_iff_not] at hfalse
          exact hfalse hq
    · constructor
      · simp only [validateIntentResult, hc]
        decide
      · intro _
        simp only [validateIntentResult, hc]
    · constructor
      · simp only [validateIntentResult, hc]
        decide
      · intro _
        simp only [validateIntentResult, hc]
  · intro msg hmsg opts hmeta raw
    have hmsg' : msg.isEmpty = false := by
      cases msg with
      | nil => exact absurd rfl hmsg
      | cons a t => rfl
    rcases raw with ⟨city, conf, reas⟩
    simp only [extractCityEntity, Option.elim, hmsg', Bool.false_eq_true, if_false,
      hmeta, if_true]
    rcases city with _ | s
    · simp [outputConfidence]
    · by_cases hs : s.isEmpty = true
      · simp [hs, outputConfidence]
      · simp only [Bool.not_eq_true] at hs
        simp only [hs, Bool.false_eq_true, if_false]
        split
        · split
          · simp [outputConfidence]
          · simp [outputConfidence]
        · simp [outputConfidence]

theorem confidence_policy_witness :
    inUnitInterval (validateIntentResult
        ⟨JVal.str (enc "today"), JVal.str (enc "high")⟩ [enc "today"]).confidence = true
  ∧ outputConfidence (extractCityEntity (some (enc "m")) ⟨none, false, none, true⟩
      (.ok ⟨some (enc "paris"), JVal.str (enc "high"), JVal.undef⟩))
      = some (JVal.str (enc "high")) := by
  constructor
  · exact (confidence_policy.1 _ _).1
  · exact (confidence_policy.2 (enc "m") (by decide) _ rfl _).trans (by decide)

end IntelliB
